import Mathlib

/-!
# Verification of the deckgl-dash color subsystem

Shallow embedding of `src/deckgl_dash/colors.py` (the `ColorScale` fluent
builder and `color_range_from_scale` discrete sampler) and of
`src/dash_deckgl/layers/base.py` (`normalize_color` / `_parse_hex_color`),
together with proofs of the specified properties.

Modelling conventions:
* Python `int` values are modelled as `Int`, Python numbers that may be
  non-integral (the float arithmetic in `color_range_from_scale`, the
  pass-through values of `normalize_color`) as `ℚ` (exact arithmetic
  idealizing IEEE doubles).
* Python exceptions are modelled with `Except`: a function that may raise
  returns `Except ε α` and the `.error` branch carries the message.
* Python strings are Lean `String`s; character-level operations work on
  `String.data`.
-/

namespace DeckglDash

/-- The set of characters Python's `str.strip()` / `int()` treat as
whitespace (`Py_UNICODE_ISSPACE`). -/
def pyIsSpace (c : Char) : Bool :=
  c ∈ ['\t', '\n', '\x0b', '\x0c', '\r', '\x1c', '\x1d', '\x1e', '\x1f', ' ',
        '\x85', '\xa0', ' ', ' ', ' ', ' ', ' ',
        ' ', ' ', ' ', ' ', ' ', ' ', ' ',
        ' ', ' ', ' ', ' ', '　']

/-- Value of a (case-insensitive, ASCII) hexadecimal digit. -/
def hexVal (c : Char) : Option Nat :=
  if '0' ≤ c ∧ c ≤ '9' then some (c.toNat - '0'.toNat)
  else if 'a' ≤ c ∧ c ≤ 'f' then some (c.toNat - 'a'.toNat + 10)
  else if 'A' ≤ c ∧ c ≤ 'F' then some (c.toNat - 'A'.toNat + 10)
  else none

/-- Python `str.strip()` on a character list: remove leading and trailing
whitespace. -/
def pyStripChars (l : List Char) : List Char :=
  ((l.dropWhile pyIsSpace).reverse.dropWhile pyIsSpace).reverse

/-- Digit-run scanner for Python `int(s, 16)`: having already read one
digit (accumulated in `acc`), accept further digits with single
underscores allowed only between digits. -/
def hexRun : Nat → List Char → Option Nat
  | acc, [] => some acc
  | acc, c :: r =>
    if c = '_' then
      match r with
      | c2 :: r2 =>
        match hexVal c2 with
        | some v => hexRun (16 * acc + v) r2
        | none => none
      | [] => none
    else
      match hexVal c with
      | some v => hexRun (16 * acc + v) r
      | none => none

/-- Start state of the digit scanner: at least one digit is required and
it must not be preceded by an underscore. -/
def hexStart (l : List Char) : Option Nat :=
  match l with
  | c :: r =>
    match hexVal c with
    | some v => hexRun v r
    | none => none
  | [] => none

/-- After an explicit `0x`/`0X` prefix a single underscore may precede the
first digit. -/
def hexAfterPrefix (l : List Char) : Option Nat :=
  match l with
  | c :: r => if c = '_' then hexStart r else hexStart l
  | [] => hexStart []

/-- Unsigned part of Python `int(s, 16)`: an optional `0x`/`0X` prefix
followed by a digit run. -/
def hexNatParse (l : List Char) : Option Nat :=
  match l with
  | c :: x :: r =>
    if c = '0' ∧ (x = 'x' ∨ x = 'X') then hexAfterPrefix r else hexStart l
  | _ => hexStart l

/-- Python `int(s, 16)`: strips surrounding whitespace, accepts an
optional sign, then an unsigned base-16 numeral. Returns `none` where
CPython raises `ValueError`. -/
def pyIntParse16 (l : List Char) : Option Int :=
  match pyStripChars l with
  | c :: r =>
    if c = '+' then (hexNatParse r).map Int.ofNat
    else if c = '-' then (hexNatParse r).map (fun n => -(n : Int))
    else (hexNatParse (c :: r)).map Int.ofNat
  | [] => (hexNatParse []).map Int.ofNat

/-- Python `int()` applied to a float / rational value: truncation toward
zero. -/
def pyTrunc (q : ℚ) : Int :=
  if q < 0 then -⌊-q⌋ else ⌊q⌋

/-- Python `sep.join(parts)`. -/
def pyJoin (sep : String) : List String → String
  | [] => ""
  | [x] => x
  | x :: xs => x ++ sep ++ pyJoin sep xs

/-- `Except.isOk` as a plain boolean discriminator. -/
def exceptOk {ε α : Type} : Except ε α → Bool
  | .ok _ => true
  | .error _ => false

/-! ## `src/deckgl_dash/colors.py` -/

/-- `AVAILABLE_SCALES`: registry of chroma.js scale names. -/
def AVAILABLE_SCALES : List String :=
  [ -- Sequential
    "OrRd", "PuBu", "BuPu", "Oranges", "BuGn", "YlOrBr", "YlGn", "Reds",
    "RdPu", "Greens", "YlGnBu", "Purples", "GnBu", "Greys", "YlOrRd",
    "PuRd", "Blues", "PuBuGn",
    -- Diverging
    "Spectral", "RdYlGn", "RdBu", "PiYG", "PRGn", "RdYlBu", "BrBG", "RdGy", "PuOr",
    -- Perceptually uniform
    "viridis", "plasma", "inferno", "magma", "cividis", "turbo"]

/-- `_SCALE_COLORS`: control-point tables (subset of the registry). -/
def SCALE_COLORS : List (String × List String) :=
  [ ("viridis", ["#440154", "#482878", "#3e4a89", "#31688e", "#26828e", "#1f9e89", "#35b779", "#6ece58", "#b5de2b", "#fde725"]),
    ("plasma", ["#0d0887", "#46039f", "#7201a8", "#9c179e", "#bd3786", "#d8576b", "#ed7953", "#fb9f3a", "#fdca26", "#f0f921"]),
    ("inferno", ["#000004", "#1b0c41", "#4a0c6b", "#781c6d", "#a52c60", "#cf4446", "#ed6925", "#fb9b06", "#f7d13d", "#fcffa4"]),
    ("magma", ["#000004", "#180f3d", "#440f76", "#721f81", "#9e2f7f", "#cd4071", "#f1605d", "#fd9668", "#feca8d", "#fcfdbf"]),
    ("cividis", ["#00204d", "#00336f", "#39486b", "#575c6d", "#6f7174", "#87877b", "#a09e81", "#bab587", "#d6cd8e", "#ffe945"]),
    ("turbo", ["#30123b", "#4662d7", "#35aaf9", "#1ae4b6", "#72fe5e", "#c8ef34", "#faba39", "#f66b19", "#ca2a04", "#7a0403"]),
    ("OrRd", ["#fff7ec", "#fee8c8", "#fdd49e", "#fdbb84", "#fc8d59", "#ef6548", "#d7301f", "#b30000", "#7f0000"]),
    ("YlGnBu", ["#ffffd9", "#edf8b1", "#c7e9b4", "#7fcdbb", "#41b6c4", "#1d91c0", "#225ea8", "#253494", "#081d58"]),
    ("RdYlBu", ["#a50026", "#d73027", "#f46d43", "#fdae61", "#fee090", "#ffffbf", "#e0f3f8", "#abd9e9", "#74add1", "#4575b4", "#313695"]),
    ("Spectral", ["#9e0142", "#d53e4f", "#f46d43", "#fdae61", "#fee08b", "#ffffbf", "#e6f598", "#abdda4", "#66c2a5", "#3288bd", "#5e4fa2"]),
    ("Blues", ["#f7fbff", "#deebf7", "#c6dbef", "#9ecae1", "#6baed6", "#4292c6", "#2171b5", "#08519c", "#08306b"]),
    ("Reds", ["#fff5f0", "#fee0d2", "#fcbba1", "#fc9272", "#fb6a4a", "#ef3b2c", "#cb181d", "#a50f15", "#67000d"]),
    ("Greens", ["#f7fcf5", "#e5f5e0", "#c7e9c0", "#a1d99b", "#74c476", "#41ab5d", "#238b45", "#006d2c", "#00441b"])]

/-- State of the `ColorScale` fluent builder (`self._scale_name`,
`self._min`, `self._max`, `self._alpha`, `self._reverse`, `self._log`,
`self._sqrt`). -/
structure ColorScale where
  scale_name : String
  minVal : Option Int
  maxVal : Option Int
  alphaVal : Option Int
  reverseFlag : Bool
  logFlag : Bool
  sqrtFlag : Bool
deriving Repr, DecidableEq

/-- `ColorScale.__init__`: validates the scale name against the registry
and initializes every optional field to `None` / flag to `False`. -/
def ColorScale.init (scale_name : String) : Except String ColorScale :=
  if ¬ AVAILABLE_SCALES.contains scale_name then
    .error ("Unknown scale '" ++ scale_name ++ "'. Available scales: " ++
      pyJoin ", " AVAILABLE_SCALES)
  else
    .ok ⟨scale_name, none, none, none, false, false, false⟩

/-- `ColorScale.domain`: validation (`min_val >= max_val` raises) precedes
assignment of `_min` and `_max`. -/
def ColorScale.domain (s : ColorScale) (min_val max_val : Int) :
    Except String ColorScale :=
  if min_val ≥ max_val then
    .error ("min_val (" ++ toString min_val ++ ") must be less than max_val (" ++
      toString max_val ++ ")")
  else
    .ok { s with minVal := some min_val, maxVal := some max_val }

/-- `ColorScale.alpha`: validation (`not 0 <= value <= 255` raises)
precedes assignment of `_alpha`. -/
def ColorScale.alpha (s : ColorScale) (value : Int) : Except String ColorScale :=
  if ¬ (0 ≤ value ∧ value ≤ 255) then
    .error ("Alpha must be 0-255, got " ++ toString value)
  else
    .ok { s with alphaVal := some value }

/-- `ColorScale.reverse`: sets `_reverse = True`. -/
def ColorScale.reverse (s : ColorScale) : ColorScale :=
  { s with reverseFlag := true }

/-- `ColorScale.log`: sets `_log = True` and clears `_sqrt` (mutually
exclusive). -/
def ColorScale.log (s : ColorScale) : ColorScale :=
  { s with logFlag := true, sqrtFlag := false }

/-- `ColorScale.sqrt`: sets `_sqrt = True` and clears `_log` (mutually
exclusive). -/
def ColorScale.sqrt (s : ColorScale) : ColorScale :=
  { s with sqrtFlag := true, logFlag := false }

/-- `ColorScale.accessor`: builds the `@@scale(...)` accessor string. -/
def ColorScale.accessor (s : ColorScale) (property_path : String) : String :=
  let modifiers : List String :=
    (if s.logFlag then ["log"] else []) ++
    (if s.sqrtFlag then ["sqrt"] else []) ++
    (if s.reverseFlag then ["reverse"] else [])
  let scale_spec : String :=
    if modifiers = [] then s.scale_name
    else s.scale_name ++ ":" ++ pyJoin ":" modifiers
  let params : List String :=
    [scale_spec, property_path] ++
    (match s.minVal, s.maxVal with
     | some mn, some mx =>
       [toString mn, toString mx] ++
       (match s.alphaVal with
        | some a => [toString a]
        | none => [])
     | _, _ =>
       match s.alphaVal with
       | some a => ["", "", toString a]
       | none => [])
  "@@scale(" ++ pyJoin ", " params ++ ")"

/-- `_hex_to_rgb`: strips leading `#` and parses three byte pairs with
`int(_, 16)` (which never fails on the registry's tables; a failure would
raise, modelled by the default `0`). -/
def hex_to_rgb (hex_str : String) : Int × Int × Int :=
  let l := hex_str.data.dropWhile (· = '#')
  ( (pyIntParse16 ((l.drop 0).take 2)).getD 0,
    (pyIntParse16 ((l.drop 2).take 2)).getD 0,
    (pyIntParse16 ((l.drop 4).take 2)).getD 0 )

/-- Interpolation loop of `color_range_from_scale` over a fixed
control-point table `colors`. -/
def crfsCore (colors : List String) (steps : Int) (rev : Bool) :
    List (List Int) :=
  let n : Int := colors.length
  let result := (List.range steps.toNat).map (fun (i : ℕ) =>
    let t : ℚ := if steps > 1 then (i : ℚ) / ((steps : ℚ) - 1) else 0
    let idx : ℚ := t * ((n : ℚ) - 1)
    let lo : Int := pyTrunc idx
    let hi : Int := min (lo + 1) (n - 1)
    let frac : ℚ := idx - (lo : ℚ)
    let c1 := hex_to_rgb (colors.getD lo.toNat "")
    let c2 := hex_to_rgb (colors.getD hi.toNat "")
    [ pyTrunc ((c1.1 : ℚ) + frac * ((c2.1 : ℚ) - (c1.1 : ℚ))),
      pyTrunc ((c1.2.1 : ℚ) + frac * ((c2.2.1 : ℚ) - (c1.2.1 : ℚ))),
      pyTrunc ((c1.2.2 : ℚ) + frac * ((c2.2.2 : ℚ) - (c1.2.2 : ℚ))) ])
  if rev then result.reverse else result

/-- `color_range_from_scale`: registry check with silent fallback to
`'viridis'` for registry names without a control-point table, then the
interpolation loop. The inner `.error` branch is Python's (unreachable)
`KeyError` on the fallback lookup. -/
def color_range_from_scale (scale_name : String) (steps : Int := 6)
    (rev : Bool := false) : Except String (List (List Int)) :=
  match SCALE_COLORS.lookup scale_name with
  | some colors => .ok (crfsCore colors steps rev)
  | none =>
    if ¬ AVAILABLE_SCALES.contains scale_name then
      .error ("Unknown scale '" ++ scale_name ++ "'. Available scales: " ++
        pyJoin ", " AVAILABLE_SCALES)
    else
      match SCALE_COLORS.lookup "viridis" with
      | some colors => .ok (crfsCore colors steps rev)
      | none => .error "KeyError: 'viridis'"

/-! ## `src/dash_deckgl/layers/base.py` -/

/-- Python exception value raised by the color normalizer: `ValueError`
(spec names `InvalidColorFormat` and `InvalidColorShape`) or `TypeError`
(spec name `UnsupportedColorType`), each with its message. -/
inductive PyColorError where
  | valueError (msg : String)
  | typeError (msg : String)
deriving Repr, DecidableEq

/-- Input universe of `normalize_color`: a string, a list/tuple of numbers,
or a value of any other type (represented by its Python type name). -/
inductive ColorValue where
  | str (s : String)
  | seq (xs : List ℚ)
  | other (typeName : String)
deriving Repr

/-- Duplicate every character (`''.join(c * 2 for c in hex_str)`). -/
def dupChars : List Char → List Char
  | [] => []
  | c :: r => c :: c :: dupChars r

/-- `_parse_hex_color`: strips surrounding whitespace, requires a leading
`#`, expands 3/4-digit short forms by duplicating each character, then
decodes consecutive 2-character slices with `int(_, 16)`.  A slice that
`int` rejects raises `int`'s own `ValueError`. -/
def parse_hex_color (s : String) : Except PyColorError (List ℚ) :=
  let stripped := pyStripChars s.data
  match stripped with
  | c :: rest =>
    if c = '#' then
    let hexs :=
      if rest.length = 3 then dupChars rest
      else if rest.length = 4 then dupChars rest
      else rest
    if hexs.length = 6 then
      match pyIntParse16 ((hexs.drop 0).take 2) with
      | none => .error (.valueError ("invalid literal for int() with base 16: '"
          ++ String.mk ((hexs.drop 0).take 2) ++ "'"))
      | some r =>
        match pyIntParse16 ((hexs.drop 2).take 2) with
        | none => .error (.valueError ("invalid literal for int() with base 16: '"
            ++ String.mk ((hexs.drop 2).take 2) ++ "'"))
        | some g =>
          match pyIntParse16 ((hexs.drop 4).take 2) with
          | none => .error (.valueError ("invalid literal for int() with base 16: '"
              ++ String.mk ((hexs.drop 4).take 2) ++ "'"))
          | some b => .ok [(r : ℚ), (g : ℚ), (b : ℚ)]
    else if hexs.length = 8 then
      match pyIntParse16 ((hexs.drop 0).take 2) with
      | none => .error (.valueError ("invalid literal for int() with base 16: '"
          ++ String.mk ((hexs.drop 0).take 2) ++ "'"))
      | some r =>
        match pyIntParse16 ((hexs.drop 2).take 2) with
        | none => .error (.valueError ("invalid literal for int() with base 16: '"
            ++ String.mk ((hexs.drop 2).take 2) ++ "'"))
        | some g =>
          match pyIntParse16 ((hexs.drop 4).take 2) with
          | none => .error (.valueError ("invalid literal for int() with base 16: '"
              ++ String.mk ((hexs.drop 4).take 2) ++ "'"))
          | some b =>
            match pyIntParse16 ((hexs.drop 6).take 2) with
            | none => .error (.valueError ("invalid literal for int() with base 16: '"
                ++ String.mk ((hexs.drop 6).take 2) ++ "'"))
            | some a => .ok [(r : ℚ), (g : ℚ), (b : ℚ), (a : ℚ)]
    else
      .error (.valueError ("Invalid hex color format: '#" ++ String.mk hexs ++ "'"))
    else
      .error (.valueError ("Hex color must start with '#', got '"
        ++ String.mk stripped ++ "'"))
  | [] =>
    .error (.valueError ("Hex color must start with '#', got '"
      ++ String.mk stripped ++ "'"))

/-- `normalize_color`: dispatches on the runtime type — strings go to the
hex parser, lists/tuples of length 3 or 4 pass through unchanged, any
other length raises `ValueError`, any other type raises `TypeError`. -/
def normalize_color : ColorValue → Except PyColorError (List ℚ)
  | .str s => parse_hex_color s
  | .seq xs =>
    if ¬ (xs.length = 3 ∨ xs.length = 4) then
      .error (.valueError ("Color must have 3 or 4 components, got "
        ++ toString xs.length))
    else
      .ok xs
  | .other typeName =>
    .error (.typeError ("Color must be a list, tuple, or hex string, got "
      ++ typeName))

/-! ## Specification-side definitions

These transcribe the wording of the specification (not the code); the
theorems below relate them to the embedded source functions. -/

/-- Builder states reachable from a successful `ColorScale(...)`
construction by any sequence of successful `domain`, `alpha`, `reverse`,
`log`, `sqrt` calls. -/
inductive ReachableScale : ColorScale → Prop where
  | init (name : String) (s : ColorScale) :
      ColorScale.init name = .ok s → ReachableScale s
  | domainStep (s s' : ColorScale) (mn mx : Int) :
      ReachableScale s → s.domain mn mx = .ok s' → ReachableScale s'
  | alphaStep (s s' : ColorScale) (v : Int) :
      ReachableScale s → s.alpha v = .ok s' → ReachableScale s'
  | reverseStep (s : ColorScale) : ReachableScale s → ReachableScale s.reverse
  | logStep (s : ColorScale) : ReachableScale s → ReachableScale s.log
  | sqrtStep (s : ColorScale) : ReachableScale s → ReachableScale s.sqrt

/-- The sampling sequence as the specification words it for `steps > 1`:
`t = i / (steps - 1)`, `idx = t * (N - 1)`, control points at `floor idx`
and `min (floor idx + 1) (N - 1)`, each channel linearly interpolated by
the fractional part and truncated to an integer. -/
def specSample (colors : List String) (steps : Int) : List (List Int) :=
  (List.range steps.toNat).map (fun (i : ℕ) =>
    let n : Int := colors.length
    let t : ℚ := (i : ℚ) / ((steps : ℚ) - 1)
    let idx : ℚ := t * ((n : ℚ) - 1)
    let lo : Int := ⌊idx⌋
    let hi : Int := min (lo + 1) (n - 1)
    let frac : ℚ := idx - (lo : ℚ)
    let lower := hex_to_rgb (colors.getD lo.toNat "")
    let upper := hex_to_rgb (colors.getD hi.toNat "")
    [ pyTrunc ((lower.1 : ℚ) + frac * ((upper.1 : ℚ) - (lower.1 : ℚ))),
      pyTrunc ((lower.2.1 : ℚ) + frac * ((upper.2.1 : ℚ) - (lower.2.1 : ℚ))),
      pyTrunc ((lower.2.2 : ℚ) + frac * ((upper.2.2 : ℚ) - (lower.2.2 : ℚ))) ])

/-- All three channels of a parsed control point lie in `[0, 255]`. -/
def rgbOKstr (s : String) : Bool :=
  let c := hex_to_rgb s
  decide (0 ≤ c.1 ∧ c.1 ≤ 255 ∧ 0 ≤ c.2.1 ∧ c.2.1 ≤ 255 ∧
          0 ≤ c.2.2 ∧ c.2.2 ≤ 255)

/-- Every channel of every row is an integer in `[0, 255]`. -/
def channelsOK (rows : List (List Int)) : Bool :=
  rows.all (fun row => row.all (fun v => decide (0 ≤ v ∧ v ≤ 255)))

/-- A two-character slice that Python's `int(_, 16)` accepts: two hex
digits, or a single hex digit preceded by a sign or whitespace, or a
single hex digit followed by whitespace. -/
def pairAccept (x y : Char) : Bool :=
  ((hexVal x).isSome && (hexVal y).isSome) ||
  ((pyIsSpace x || x = '+' || x = '-') && (hexVal y).isSome) ||
  ((hexVal x).isSome && pyIsSpace y)

/-- Consecutive two-character slices of an even-length character list. -/
def chunkPairs : List Char → List (Char × Char)
  | x :: y :: r => (x, y) :: chunkPairs r
  | _ => []

/-- Success condition of the hex-string path of `normalize_color`, as the
amended claim words it: after stripping surrounding whitespace the string
must begin with `#`; the remainder must have length 3 or 4 with every
character a hex digit, or length 6 or 8 with every consecutive
two-character slice accepted by Python's base-16 integer parser. -/
def hexFormatOK (l : List Char) : Bool :=
  match pyStripChars l with
  | c :: rest =>
    if c = '#' then
      if rest.length = 3 ∨ rest.length = 4 then
        rest.all (fun d => (hexVal d).isSome)
      else if rest.length = 6 ∨ rest.length = 8 then
        (chunkPairs rest).all (fun p => pairAccept p.1 p.2)
      else false
    else false
  | [] => false

/-! ## Helper lemmas -/

theorem pyTrunc_of_nonneg {q : ℚ} (h : 0 ≤ q) : pyTrunc q = ⌊q⌋ := by
  unfold pyTrunc
  rw [if_neg (not_lt.mpr h)]

theorem pyTrunc_intCast (z : Int) : pyTrunc (z : ℚ) = z := by
  unfold pyTrunc
  split
  · rw [show -(z : ℚ) = ((-z : ℤ) : ℚ) from by push_cast ; ring,
      Int.floor_intCast, neg_neg]
  · exact Int.floor_intCast z

theorem crfsCore_of_nonpos (colors : List String) (steps : Int) (rev : Bool)
    (h : steps ≤ 0) : crfsCore colors steps rev = [] := by
  simp [crfsCore, Int.toNat_of_nonpos h]

theorem lookup_scale_colors {name : String} {colors : List String}
    (h : SCALE_COLORS.lookup name = some colors) :
    name ∈ AVAILABLE_SCALES ∧ 0 < colors.length ∧
      ∀ c ∈ colors, rgbOKstr c = true := by
  simp only [SCALE_COLORS, List.lookup] at h
  repeat' split at h
  all_goals cases h
  all_goals rename_i heq
  all_goals cases eq_of_beq heq
  all_goals decide

/-! ## Claim theorems -/

/-- C5: a numeric-sequence input of length 3 or 4 passes through
`normalize_color` unchanged — no range clamping, no integrality check
(the quantification over arbitrary rational entries covers values outside
`[0, 255]` and non-integers); any other length raises the
`InvalidColorShape` `ValueError`; any non-string non-sequence input
raises the `UnsupportedColorType` `TypeError`. -/
theorem normalize_color_sequence_behavior :
    (∀ xs : List ℚ, xs.length = 3 ∨ xs.length = 4 →
      normalize_color (.seq xs) = .ok xs) ∧
    (∀ xs : List ℚ, ¬ (xs.length = 3 ∨ xs.length = 4) →
      normalize_color (.seq xs) =
        .error (.valueError ("Color must have 3 or 4 components, got "
          ++ toString xs.length))) ∧
    (∀ t : String, normalize_color (.other t) =
      .error (.typeError ("Color must be a list, tuple, or hex string, got "
        ++ t))) := by
  refine ⟨fun xs h => ?_, fun xs h => ?_, fun t => rfl⟩
  · simp [normalize_color, h]
  · simp only [normalize_color, if_pos h]

/-- Witness for C5: an out-of-range, non-integral RGB triple passes
through untouched. -/
theorem normalize_color_sequence_behavior_witness :
    normalize_color (.seq [300, -5, (1 : ℚ)/2]) = .ok [300, -5, (1 : ℚ)/2] :=
  normalize_color_sequence_behavior.1 _ (Or.inl rfl)

/-- C6: in every builder state reachable from construction, the
logarithmic and square-root flags are never both set: `log()` sets the
log flag and unconditionally clears the sqrt flag, `sqrt()` does the
symmetric thing, so the last call wins regardless of call order. -/
theorem colorScale_log_sqrt_exclusive :
    (∀ s : ColorScale, ReachableScale s → (s.logFlag && s.sqrtFlag) = false) ∧
    (∀ s : ColorScale,
      (ColorScale.log s).logFlag = true ∧ (ColorScale.log s).sqrtFlag = false ∧
      (ColorScale.sqrt s).sqrtFlag = true ∧ (ColorScale.sqrt s).logFlag = false) := by
  constructor
  · intro s h
    induction h with
    | init name s h =>
      unfold ColorScale.init at h
      split at h
      · cases h
      · cases h; rfl
    | domainStep s s' mn mx _ h ih =>
      unfold ColorScale.domain at h
      split at h
      · cases h
      · cases h; simpa using ih
    | alphaStep s s' v _ h ih =>
      unfold ColorScale.alpha at h
      split at h
      · cases h
      · cases h; simpa using ih
    | reverseStep s _ ih => simpa [ColorScale.reverse] using ih
    | logStep s _ _ => simp [ColorScale.log]
    | sqrtStep s _ _ => simp [ColorScale.sqrt]
  · exact fun s => ⟨rfl, rfl, rfl, rfl⟩

/-- Witness for C6: `.log()` then `.sqrt()` from a fresh builder leaves
the two flags mutually exclusive. -/
theorem colorScale_log_sqrt_exclusive_witness :
    ((ColorScale.mk "viridis" none none none false false false).log.sqrt.logFlag &&
     (ColorScale.mk "viridis" none none none false false false).log.sqrt.sqrtFlag)
      = false :=
  colorScale_log_sqrt_exclusive.1 _
    (ReachableScale.sqrtStep _ (ReachableScale.logStep _
      (ReachableScale.init "viridis" _ rfl)))

/-- C7: `domain(min, max)` fails exactly when `min >= max`, `alpha(v)`
fails exactly when `v` is outside `[0, 255]`; on success the new values
overwrite the old ones and no other field changes.  In the embedding a
failing call returns only the error — mirroring the source, where the
`raise` precedes every assignment, so a failing call leaves the builder
state exactly as it was. -/
theorem colorScale_domain_alpha_validation :
    (∀ (s : ColorScale) (mn mx : Int),
      exceptOk (s.domain mn mx) = false ↔ mn ≥ mx) ∧
    (∀ (s : ColorScale) (mn mx : Int), mn < mx →
      s.domain mn mx = .ok { s with minVal := some mn, maxVal := some mx }) ∧
    (∀ (s : ColorScale) (v : Int),
      exceptOk (s.alpha v) = false ↔ (v < 0 ∨ 255 < v)) ∧
    (∀ (s : ColorScale) (v : Int), 0 ≤ v → v ≤ 255 →
      s.alpha v = .ok { s with alphaVal := some v }) := by
  refine ⟨fun s mn mx => ?_, fun s mn mx h => ?_, fun s v => ?_,
    fun s v h0 h255 => ?_⟩
  · by_cases h : mn ≥ mx <;> simp [ColorScale.domain, exceptOk, h]
  · rw [ColorScale.domain, if_neg (not_le.mpr h)]
  · by_cases h : 0 ≤ v ∧ v ≤ 255 <;> simp [ColorScale.alpha, exceptOk, h]
    omega
  · rw [ColorScale.alpha, if_neg (by omega)]

/-- Witness for C7: `domain(0, 100)` and `alpha(180)` succeed and set
exactly the corresponding fields. -/
theorem colorScale_domain_alpha_validation_witness :
    (ColorScale.mk "viridis" none none none false false false).domain 0 100 =
      .ok (ColorScale.mk "viridis" (some 0) (some 100) none false false false) ∧
    (ColorScale.mk "viridis" none none none false false false).alpha 180 =
      .ok (ColorScale.mk "viridis" none none (some 180) false false false) :=
  ⟨colorScale_domain_alpha_validation.2.1 _ 0 100 (by decide),
   colorScale_domain_alpha_validation.2.2.2 _ 180 (by decide) (by decide)⟩

/-- C10: `color_range_from_scale` never validates `steps`: for `steps = 0`
and for every negative `steps` it raises nothing and returns the empty
list (also with `reverse = True`), because the generation loop
(`range(steps)`) produces no elements. -/
theorem color_range_nonpositive_steps :
    ∀ (name : String) (steps : Int) (rev : Bool),
      AVAILABLE_SCALES.contains name = true → steps ≤ 0 →
      color_range_from_scale name steps rev = .ok [] := by
  intro name steps rev hname hsteps
  unfold color_range_from_scale
  cases hl : SCALE_COLORS.lookup name with
  | some colors => simp [crfsCore_of_nonpos _ _ _ hsteps]
  | none =>
    simp only [hname]
    obtain ⟨cv, hcv⟩ : ∃ cv, SCALE_COLORS.lookup "viridis" = some cv := ⟨_, rfl⟩
    simp [hcv, crfsCore_of_nonpos _ _ _ hsteps]

/-- Witness for C10: `steps = -3` with `reverse = True` yields `[]`. -/
theorem color_range_nonpositive_steps_witness :
    color_range_from_scale "viridis" (-3) true = .ok [] :=
  color_range_nonpositive_steps "viridis" (-3) true (by decide) (by decide)

/-- C8: `ColorScale` construction fails exactly when the name is outside
the `AVAILABLE_SCALES` registry; `color_range_from_scale` fails exactly
when the name is outside that same registry; and for every registry name
without a `_SCALE_COLORS` control-point table the sampler silently falls
back to the `'viridis'` table, returning exactly what
`color_range_from_scale('viridis', ...)` returns. -/
theorem unknown_palette_and_fallback :
    (∀ name : String,
      exceptOk (ColorScale.init name) = AVAILABLE_SCALES.contains name) ∧
    (∀ (name : String) (steps : Int) (rev : Bool),
      exceptOk (color_range_from_scale name steps rev) =
        AVAILABLE_SCALES.contains name) ∧
    (∀ (name : String) (steps : Int) (rev : Bool),
      AVAILABLE_SCALES.contains name = true →
      SCALE_COLORS.lookup name = none →
      color_range_from_scale name steps rev =
        color_range_from_scale "viridis" steps rev) := by
  refine ⟨fun name => ?_, fun name steps rev => ?_, fun name steps rev hc hl => ?_⟩
  · by_cases h : name ∈ AVAILABLE_SCALES <;> simp [ColorScale.init, exceptOk, h]
  · unfold color_range_from_scale
    cases hl : SCALE_COLORS.lookup name with
    | some colors =>
      simp [exceptOk, (lookup_scale_colors hl).1]
    | none =>
      by_cases h : name ∈ AVAILABLE_SCALES
      · obtain ⟨cv, hcv⟩ : ∃ cv, SCALE_COLORS.lookup "viridis" = some cv := ⟨_, rfl⟩
        simp [h, hcv, exceptOk]
      · simp [h, exceptOk]
  · obtain ⟨cv, hcv⟩ : ∃ cv, SCALE_COLORS.lookup "viridis" = some cv := ⟨_, rfl⟩
    have hm : name ∈ AVAILABLE_SCALES := by simpa using hc
    unfold color_range_from_scale
    simp [hl, hm, hcv]

/-- Witness for C8: `'PuBu'` is in the registry but has no control-point
table; sampling it falls back to `'viridis'`. -/
theorem unknown_palette_and_fallback_witness :
    color_range_from_scale "PuBu" 4 false =
      color_range_from_scale "viridis" 4 false :=
  unknown_palette_and_fallback.2.2 "PuBu" 4 false (by decide) rfl

theorem pyTrunc_zero : pyTrunc 0 = 0 := by
  rw [pyTrunc_of_nonneg le_rfl]
  exact Int.floor_zero

theorem trunc_interp_bound {a b : Int} {f : ℚ} (ha : 0 ≤ a ∧ a ≤ 255)
    (hb : 0 ≤ b ∧ b ≤ 255) (hf : 0 ≤ f ∧ f ≤ 1) :
    0 ≤ pyTrunc ((a : ℚ) + f * ((b : ℚ) - (a : ℚ))) ∧
      pyTrunc ((a : ℚ) + f * ((b : ℚ) - (a : ℚ))) ≤ 255 := by
  obtain ⟨ha0, ha255⟩ := ha
  obtain ⟨hb0, hb255⟩ := hb
  obtain ⟨hf0, hf1⟩ := hf
  have haq0 : (0 : ℚ) ≤ (a : ℚ) := by exact_mod_cast ha0
  have haq255 : (a : ℚ) ≤ 255 := by exact_mod_cast ha255
  have hbq0 : (0 : ℚ) ≤ (b : ℚ) := by exact_mod_cast hb0
  have hbq255 : (b : ℚ) ≤ 255 := by exact_mod_cast hb255
  have hv0 : 0 ≤ (a : ℚ) + f * ((b : ℚ) - (a : ℚ)) := by nlinarith
  have hv255 : (a : ℚ) + f * ((b : ℚ) - (a : ℚ)) ≤ 255 := by nlinarith
  rw [pyTrunc_of_nonneg hv0]
  refine ⟨Int.floor_nonneg.mpr hv0, ?_⟩
  have : (⌊(a : ℚ) + f * ((b : ℚ) - (a : ℚ))⌋ : ℚ) ≤ 255 :=
    le_trans (Int.floor_le _) hv255
  exact_mod_cast this

theorem getD_rgbOK {colors : List String}
    (hok : ∀ c ∈ colors, rgbOKstr c = true) (k : Nat) :
    rgbOKstr (colors.getD k "") = true := by
  by_cases hk : k < colors.length
  · rw [List.getD_eq_getElem _ _ hk]
    exact hok _ (List.getElem_mem hk)
  · rw [List.getD_eq_default _ _ (le_of_not_lt hk)]
    decide

/-- C3: for a palette with a control-point table and `steps > 1` the
result of `color_range_from_scale` is exactly the specification's
sampling sequence (`t = i/(steps-1)`, `idx = t*(N-1)`, control points at
`floor idx` and `min (floor idx + 1) (N-1)`, channel-wise truncated
linear interpolation); for `steps = 1` the single output is the palette's
first control point; with `reverse = True` the output is the reversal of
the non-reversed sequence. -/
theorem crfs_interpolation_spec :
    (∀ (name : String) (colors : List String) (steps : Int),
      SCALE_COLORS.lookup name = some colors → 1 < steps →
      color_range_from_scale name steps false = .ok (specSample colors steps)) ∧
    (∀ (name : String) (colors : List String),
      SCALE_COLORS.lookup name = some colors →
      color_range_from_scale name 1 false =
        .ok [[ (hex_to_rgb (colors.getD 0 "")).1,
               (hex_to_rgb (colors.getD 0 "")).2.1,
               (hex_to_rgb (colors.getD 0 "")).2.2 ]]) ∧
    (∀ (name : String) (colors : List String) (steps : Int),
      SCALE_COLORS.lookup name = some colors →
      color_range_from_scale name steps true =
        Except.map List.reverse (color_range_from_scale name steps false)) := by
  refine ⟨fun name colors steps hl hsteps => ?_, fun name colors hl => ?_,
    fun name colors steps hl => ?_⟩
  · have hlen := (lookup_scale_colors hl).2.1
    have hstepsq : (1 : ℚ) < (steps : ℚ) := by exact_mod_cast hsteps
    suffices h : crfsCore colors steps false = specSample colors steps by
      unfold color_range_from_scale
      rw [hl]
      exact congrArg Except.ok h
    unfold crfsCore specSample
    dsimp only
    rw [if_neg (by simp)]
    refine List.map_congr_left (fun i hi => ?_)
    have hlenq' : (1 : ℚ) ≤ (((colors.length : ℤ)) : ℚ) := by exact_mod_cast hlen
    have hidx : (0 : ℚ) ≤
        ((i : ℚ) / ((steps : ℚ) - 1)) * ((((colors.length : ℤ)) : ℚ) - 1) := by
      apply mul_nonneg
      · apply div_nonneg (by positivity)
        linarith
      · linarith
    rw [if_pos hsteps, pyTrunc_of_nonneg hidx]
  · suffices h : crfsCore colors 1 false =
        [[ (hex_to_rgb (colors.getD 0 "")).1,
           (hex_to_rgb (colors.getD 0 "")).2.1,
           (hex_to_rgb (colors.getD 0 "")).2.2 ]] by
      unfold color_range_from_scale
      rw [hl]
      exact congrArg Except.ok h
    unfold crfsCore
    dsimp only
    rw [if_neg (by simp)]
    rw [show List.range ((1 : Int)).toNat = [0] from rfl]
    simp only [List.map_cons, List.map_nil]
    rw [if_neg (by decide)]
    norm_num [pyTrunc_zero, pyTrunc_intCast]
  · unfold color_range_from_scale
    rw [hl]
    rfl

/-- Witness for C3: sampling the `'viridis'` table at `steps = 3` equals
the specification's sampling sequence. -/
theorem crfs_interpolation_spec_witness :
    color_range_from_scale "viridis" 3 false =
      .ok (specSample
        ["#440154", "#482878", "#3e4a89", "#31688e", "#26828e", "#1f9e89",
         "#35b779", "#6ece58", "#b5de2b", "#fde725"] 3) :=
  crfs_interpolation_spec.1 "viridis" _ 3 rfl (by decide)

/-- C9: for every palette with a control-point table and every positive
`steps`, every channel of every triple returned by
`color_range_from_scale` is an integer in `[0, 255]`: interpolating
between two in-range control-point channels with a weight in `[0, 1]` and
truncating never leaves the range. -/
theorem crfs_channels_bounded :
    ∀ (name : String) (colors : List String) (steps : Int) (rev : Bool),
      SCALE_COLORS.lookup name = some colors → 0 < steps →
      color_range_from_scale name steps rev = .ok (crfsCore colors steps rev) ∧
      channelsOK (crfsCore colors steps rev) = true := by
  intro name colors steps rev hl hsteps
  obtain ⟨hmem, hlen, hok⟩ := lookup_scale_colors hl
  have hlenq : (1 : ℚ) ≤ (colors.length : ℚ) := by exact_mod_cast hlen
  refine ⟨by unfold color_range_from_scale; rw [hl], ?_⟩
  have main : channelsOK (crfsCore colors steps false) = true := by
    unfold channelsOK crfsCore
    rw [if_neg (by simp), List.all_eq_true]
    intro row hrow
    obtain ⟨i, _, rfl⟩ := List.mem_map.mp hrow
    dsimp only
    set t : ℚ := if steps > 1 then (i : ℚ) / ((steps : ℚ) - 1) else 0 with hT
    set idx : ℚ := t * ((((colors.length : ℤ)) : ℚ) - 1) with hIdx
    set lo : Int := pyTrunc idx with hLo
    set hi : Int := min (lo + 1) ((colors.length : ℤ) - 1) with hHi
    set frac : ℚ := idx - (lo : ℚ) with hFrac
    have hlenq' : (1 : ℚ) ≤ (((colors.length : ℤ)) : ℚ) := by exact_mod_cast hlen
    have ht : 0 ≤ t := by
      rw [hT]
      split
      · rename_i hs
        have hs' : (1 : ℚ) < (steps : ℚ) := by exact_mod_cast hs
        apply div_nonneg (by positivity)
        linarith
      · exact le_rfl
    have hidx0 : 0 ≤ idx := by
      rw [hIdx]
      exact mul_nonneg ht (by linarith)
    have hlo : lo = ⌊idx⌋ := by
      rw [hLo]
      exact pyTrunc_of_nonneg hidx0
    have hfrac : 0 ≤ frac ∧ frac ≤ 1 := by
      rw [hFrac, hlo]
      exact ⟨Int.fract_nonneg idx, le_of_lt (Int.fract_lt_one idx)⟩
    have hb1 := getD_rgbOK hok lo.toNat
    have hb2 := getD_rgbOK hok hi.toNat
    simp only [rgbOKstr, decide_eq_true_eq] at hb1 hb2
    simp only [List.all_cons, List.all_nil, Bool.and_true, Bool.and_eq_true,
      decide_eq_true_eq]
    obtain ⟨h11, h12, h13, h14, h15, h16⟩ := hb1
    obtain ⟨h21, h22, h23, h24, h25, h26⟩ := hb2
    exact ⟨trunc_interp_bound ⟨h11, h12⟩ ⟨h21, h22⟩ hfrac,
           trunc_interp_bound ⟨h13, h14⟩ ⟨h23, h24⟩ hfrac,
           trunc_interp_bound ⟨h15, h16⟩ ⟨h25, h26⟩ hfrac⟩
  cases rev
  · exact main
  · rw [show crfsCore colors steps true = (crfsCore colors steps false).reverse
        from rfl]
    rw [show channelsOK (crfsCore colors steps false).reverse =
        channelsOK (crfsCore colors steps false) from by
      simp [channelsOK, List.all_reverse]]
    exact main

/-- Witness for C9: the 4-step `'viridis'` sample exists and every
channel lies in `[0, 255]`. -/
theorem crfs_channels_bounded_witness :
    color_range_from_scale "viridis" 4 false =
      .ok (crfsCore
        ["#440154", "#482878", "#3e4a89", "#31688e", "#26828e", "#1f9e89",
         "#35b779", "#6ece58", "#b5de2b", "#fde725"] 4 false) ∧
    channelsOK (crfsCore
        ["#440154", "#482878", "#3e4a89", "#31688e", "#26828e", "#1f9e89",
         "#35b779", "#6ece58", "#b5de2b", "#fde725"] 4 false) = true :=
  crfs_channels_bounded "viridis" _ 4 false rfl (by decide)

/-- C1: for every builder state (valid palette name, optional domain,
optional alpha, flags with at most one of log/sqrt set) and every field
path, `accessor` returns exactly
`'@@scale(' + token + ', ' + field + tail + ')'` where `token` is the
palette name followed by a colon-joined list of the active modifiers in
the order [log-or-sqrt, reverse] (no colon section when no modifier is
active) and `tail` is empty / `', min, max'` / `', min, max, alpha'` /
`', , , alpha'` according to which of domain and alpha are set, with
comma-space separating parameters. -/
theorem accessor_format :
    ∀ (p f : String) (dom : Option (Int × Int)) (al : Option Int)
      (lg sq rv : Bool),
      p ∈ AVAILABLE_SCALES →
      (lg && sq) = false →
      ColorScale.accessor ⟨p, dom.map Prod.fst, dom.map Prod.snd, al, rv, lg, sq⟩ f =
        "@@scale(" ++
          (p ++ (if lg ∨ sq ∨ rv then
              ":" ++ pyJoin ":"
                ((if lg then ["log"] else if sq then ["sqrt"] else []) ++
                 (if rv then ["reverse"] else []))
            else "")) ++
          ", " ++ f ++
          (match dom, al with
           | some (mn, mx), none => ", " ++ toString mn ++ ", " ++ toString mx
           | some (mn, mx), some a =>
             ", " ++ toString mn ++ ", " ++ toString mx ++ ", " ++ toString a
           | none, some a => ", , , " ++ toString a
           | none, none => "") ++ ")" := by
  intro p f dom al lg sq rv hp hex
  rcases dom with _ | ⟨mn, mx⟩ <;> rcases al with _ | a <;>
    cases lg <;> cases sq <;> cases rv <;>
    first
      | exact absurd hex (by decide)
      | (apply String.ext
         simp [ColorScale.accessor, pyJoin, String.data_append, List.append_assoc])

/-- Witness for C1: a fully-configured builder produces the exact
claimed string. -/
theorem accessor_format_witness :
    ColorScale.accessor
        ⟨"viridis", some 0, some 100, some 180, true, true, false⟩
        "properties.count" =
      "@@scale(" ++
        ("viridis" ++ (if (true : Bool) ∨ (false : Bool) ∨ (true : Bool) then
            ":" ++ pyJoin ":"
              ((if (true : Bool) then ["log"]
                else if (false : Bool) then ["sqrt"] else []) ++
               (if (true : Bool) then ["reverse"] else []))
          else "")) ++
        ", " ++ "properties.count" ++
        (", " ++ toString (0 : Int) ++ ", " ++ toString (100 : Int) ++ ", " ++
          toString (180 : Int)) ++ ")" :=
  accessor_format "viridis" "properties.count" (some (0, 100)) (some 180)
    true false true (by decide) (by decide)

theorem space_not_hex : ∀ {c : Char}, pyIsSpace c = true → hexVal c = none := by
  intro c h
  simp only [pyIsSpace, List.mem_cons, List.not_mem_nil, or_false,
    decide_eq_true_eq] at h
  rcases h with rfl | rfl | rfl | rfl | rfl | rfl | rfl | rfl | rfl | rfl | rfl |
    rfl | rfl | rfl | rfl | rfl | rfl | rfl | rfl | rfl | rfl | rfl | rfl | rfl |
    rfl | rfl | rfl | rfl | rfl <;> rfl

theorem hex_not_space {c : Char} {v : Nat} (h : hexVal c = some v) :
    pyIsSpace c = false := by
  by_contra hc
  rw [Bool.not_eq_false] at hc
  simp [space_not_hex hc] at h

theorem hex_ne_of_none {c : Char} {v : Nat} (h : hexVal c = some v) {d : Char}
    (hd : hexVal d = none) : c ≠ d := by
  intro e
  rw [e, hd] at h
  cases h

theorem dropWhile_eq_self_of (p : Char → Bool) (l : List Char)
    (h : ∀ c ∈ l, p c = false) : l.dropWhile p = l := by
  cases l with
  | nil => rfl
  | cons a t => rw [List.dropWhile_cons, h a (by simp)]; simp

theorem pyStripChars_eq_self {l : List Char} (h : ∀ c ∈ l, pyIsSpace c = false) :
    pyStripChars l = l := by
  unfold pyStripChars
  rw [dropWhile_eq_self_of _ _ h,
    dropWhile_eq_self_of _ _ (fun c hc => h c (List.mem_reverse.mp hc)),
    List.reverse_reverse]

theorem hexPairParse {a b : Char} {va vb : Nat} (ha : hexVal a = some va)
    (hb : hexVal b = some vb) :
    pyIntParse16 [a, b] = some (Int.ofNat (16 * va + vb)) := by
  have hstrip : pyStripChars [a, b] = [a, b] := by
    apply pyStripChars_eq_self
    intro c hc
    simp only [List.mem_cons, List.not_mem_nil, or_false] at hc
    rcases hc with rfl | rfl
    · exact hex_not_space ha
    · exact hex_not_space hb
  unfold pyIntParse16
  rw [hstrip]
  simp only [hexNatParse, hexStart, hexRun, ha, hb,
    hex_ne_of_none ha (show hexVal '+' = none from rfl),
    hex_ne_of_none ha (show hexVal '-' = none from rfl),
    hex_ne_of_none hb (show hexVal 'x' = none from rfl),
    hex_ne_of_none hb (show hexVal 'X' = none from rfl),
    hex_ne_of_none hb (show hexVal '_' = none from rfl)]
  simp

theorem strip_hash_hex {l : List Char} (h : ∀ c ∈ l, ∃ v, hexVal c = some v) :
    pyStripChars ('#' :: l) = '#' :: l := by
  apply pyStripChars_eq_self
  intro c hc
  rcases List.mem_cons.mp hc with rfl | hc
  · rfl
  · obtain ⟨v, hv⟩ := h c hc
    exact hex_not_space hv

theorem parse_hex6 {c1 c2 c3 c4 c5 c6 : Char} {v1 v2 v3 v4 v5 v6 : Nat}
    (h1 : hexVal c1 = some v1) (h2 : hexVal c2 = some v2)
    (h3 : hexVal c3 = some v3) (h4 : hexVal c4 = some v4)
    (h5 : hexVal c5 = some v5) (h6 : hexVal c6 = some v6) :
    parse_hex_color (String.mk ['#', c1, c2, c3, c4, c5, c6]) =
      .ok [((16 * v1 + v2 : ℕ) : ℚ), ((16 * v3 + v4 : ℕ) : ℚ),
           ((16 * v5 + v6 : ℕ) : ℚ)] := by
  have hstrip : pyStripChars ['#', c1, c2, c3, c4, c5, c6] =
      ['#', c1, c2, c3, c4, c5, c6] := by
    apply strip_hash_hex
    intro c hc
    simp only [List.mem_cons, List.not_mem_nil, or_false] at hc
    rcases hc with rfl | rfl | rfl | rfl | rfl | rfl
    exacts [⟨_, h1⟩, ⟨_, h2⟩, ⟨_, h3⟩, ⟨_, h4⟩, ⟨_, h5⟩, ⟨_, h6⟩]
  unfold parse_hex_color
  rw [show (String.mk ['#', c1, c2, c3, c4, c5, c6]).data =
      ['#', c1, c2, c3, c4, c5, c6] from rfl]
  rw [hstrip]
  simp only [List.length_cons, List.length_nil, List.drop, List.take]
  norm_num
  rw [hexPairParse h1 h2, hexPairParse h3 h4, hexPairParse h5 h6]
  norm_num

theorem parse_hex8 {c1 c2 c3 c4 c5 c6 c7 c8 : Char}
    {v1 v2 v3 v4 v5 v6 v7 v8 : Nat}
    (h1 : hexVal c1 = some v1) (h2 : hexVal c2 = some v2)
    (h3 : hexVal c3 = some v3) (h4 : hexVal c4 = some v4)
    (h5 : hexVal c5 = some v5) (h6 : hexVal c6 = some v6)
    (h7 : hexVal c7 = some v7) (h8 : hexVal c8 = some v8) :
    parse_hex_color (String.mk ['#', c1, c2, c3, c4, c5, c6, c7, c8]) =
      .ok [((16 * v1 + v2 : ℕ) : ℚ), ((16 * v3 + v4 : ℕ) : ℚ),
           ((16 * v5 + v6 : ℕ) : ℚ), ((16 * v7 + v8 : ℕ) : ℚ)] := by
  have hstrip : pyStripChars ['#', c1, c2, c3, c4, c5, c6, c7, c8] =
      ['#', c1, c2, c3, c4, c5, c6, c7, c8] := by
    apply strip_hash_hex
    intro c hc
    simp only [List.mem_cons, List.not_mem_nil, or_false] at hc
    rcases hc with rfl | rfl | rfl | rfl | rfl | rfl | rfl | rfl
    exacts [⟨_, h1⟩, ⟨_, h2⟩, ⟨_, h3⟩, ⟨_, h4⟩, ⟨_, h5⟩, ⟨_, h6⟩, ⟨_, h7⟩, ⟨_, h8⟩]
  unfold parse_hex_color
  rw [show (String.mk ['#', c1, c2, c3, c4, c5, c6, c7, c8]).data =
      ['#', c1, c2, c3, c4, c5, c6, c7, c8] from rfl]
  rw [hstrip]
  simp only [List.length_cons, List.length_nil, List.drop, List.take]
  norm_num
  rw [hexPairParse h1 h2, hexPairParse h3 h4, hexPairParse h5 h6,
    hexPairParse h7 h8]
  norm_num

theorem parse_hex3 {c1 c2 c3 : Char} {v1 v2 v3 : Nat}
    (h1 : hexVal c1 = some v1) (h2 : hexVal c2 = some v2)
    (h3 : hexVal c3 = some v3) :
    parse_hex_color (String.mk ['#', c1, c2, c3]) =
      .ok [((16 * v1 + v1 : ℕ) : ℚ), ((16 * v2 + v2 : ℕ) : ℚ),
           ((16 * v3 + v3 : ℕ) : ℚ)] := by
  have hstrip : pyStripChars ['#', c1, c2, c3] = ['#', c1, c2, c3] := by
    apply strip_hash_hex
    intro c hc
    simp only [List.mem_cons, List.not_mem_nil, or_false] at hc
    rcases hc with rfl | rfl | rfl
    exacts [⟨_, h1⟩, ⟨_, h2⟩, ⟨_, h3⟩]
  unfold parse_hex_color
  rw [show (String.mk ['#', c1, c2, c3]).data = ['#', c1, c2, c3] from rfl]
  rw [hstrip]
  simp only [List.length_cons, List.length_nil, dupChars, List.drop, List.take]
  norm_num
  rw [hexPairParse h1 h1, hexPairParse h2 h2, hexPairParse h3 h3]
  norm_num

theorem parse_hex4 {c1 c2 c3 c4 : Char} {v1 v2 v3 v4 : Nat}
    (h1 : hexVal c1 = some v1) (h2 : hexVal c2 = some v2)
    (h3 : hexVal c3 = some v3) (h4 : hexVal c4 = some v4) :
    parse_hex_color (String.mk ['#', c1, c2, c3, c4]) =
      .ok [((16 * v1 + v1 : ℕ) : ℚ), ((16 * v2 + v2 : ℕ) : ℚ),
           ((16 * v3 + v3 : ℕ) : ℚ), ((16 * v4 + v4 : ℕ) : ℚ)] := by
  have hstrip : pyStripChars ['#', c1, c2, c3, c4] = ['#', c1, c2, c3, c4] := by
    apply strip_hash_hex
    intro c hc
    simp only [List.mem_cons, List.not_mem_nil, or_false] at hc
    rcases hc with rfl | rfl | rfl | rfl
    exacts [⟨_, h1⟩, ⟨_, h2⟩, ⟨_, h3⟩, ⟨_, h4⟩]
  unfold parse_hex_color
  rw [show (String.mk ['#', c1, c2, c3, c4]).data = ['#', c1, c2, c3, c4] from rfl]
  rw [hstrip]
  simp only [List.length_cons, List.length_nil, dupChars, List.drop, List.take]
  norm_num
  rw [hexPairParse h1 h1, hexPairParse h2 h2, hexPairParse h3 h3,
    hexPairParse h4 h4]
  norm_num

/-- C2: a marker followed by exactly 6 (resp. 8) hex digits decodes the
consecutive pairs as bytes into 3 (resp. 4) components; a marker followed
by 3 (resp. 4) hex digits gives exactly the result of the 6 (resp. 8)
digit string obtained by duplicating each digit; in particular `#F80`
yields `[255, 136, 0]` and `#F80C` yields `[255, 136, 0, 204]`. -/
theorem normalize_color_hex_decode :
    (∀ (c1 c2 c3 c4 c5 c6 : Char) (v1 v2 v3 v4 v5 v6 : Nat),
      hexVal c1 = some v1 → hexVal c2 = some v2 → hexVal c3 = some v3 →
      hexVal c4 = some v4 → hexVal c5 = some v5 → hexVal c6 = some v6 →
      normalize_color (.str (String.mk ['#', c1, c2, c3, c4, c5, c6])) =
        .ok [((16 * v1 + v2 : ℕ) : ℚ), ((16 * v3 + v4 : ℕ) : ℚ),
             ((16 * v5 + v6 : ℕ) : ℚ)]) ∧
    (∀ (c1 c2 c3 c4 c5 c6 c7 c8 : Char) (v1 v2 v3 v4 v5 v6 v7 v8 : Nat),
      hexVal c1 = some v1 → hexVal c2 = some v2 → hexVal c3 = some v3 →
      hexVal c4 = some v4 → hexVal c5 = some v5 → hexVal c6 = some v6 →
      hexVal c7 = some v7 → hexVal c8 = some v8 →
      normalize_color (.str (String.mk ['#', c1, c2, c3, c4, c5, c6, c7, c8])) =
        .ok [((16 * v1 + v2 : ℕ) : ℚ), ((16 * v3 + v4 : ℕ) : ℚ),
             ((16 * v5 + v6 : ℕ) : ℚ), ((16 * v7 + v8 : ℕ) : ℚ)]) ∧
    (∀ (c1 c2 c3 : Char) (v1 v2 v3 : Nat),
      hexVal c1 = some v1 → hexVal c2 = some v2 → hexVal c3 = some v3 →
      normalize_color (.str (String.mk ['#', c1, c2, c3])) =
        normalize_color (.str (String.mk ['#', c1, c1, c2, c2, c3, c3]))) ∧
    (∀ (c1 c2 c3 c4 : Char) (v1 v2 v3 v4 : Nat),
      hexVal c1 = some v1 → hexVal c2 = some v2 → hexVal c3 = some v3 →
      hexVal c4 = some v4 →
      normalize_color (.str (String.mk ['#', c1, c2, c3, c4])) =
        normalize_color (.str (String.mk ['#', c1, c1, c2, c2, c3, c3, c4, c4]))) ∧
    normalize_color (.str "#F80") = .ok [255, 136, 0] ∧
    normalize_color (.str "#F80C") = .ok [255, 136, 0, 204] := by
  refine ⟨fun c1 c2 c3 c4 c5 c6 v1 v2 v3 v4 v5 v6 h1 h2 h3 h4 h5 h6 =>
      parse_hex6 h1 h2 h3 h4 h5 h6,
    fun c1 c2 c3 c4 c5 c6 c7 c8 v1 v2 v3 v4 v5 v6 v7 v8 h1 h2 h3 h4 h5 h6 h7 h8 =>
      parse_hex8 h1 h2 h3 h4 h5 h6 h7 h8,
    fun c1 c2 c3 v1 v2 v3 h1 h2 h3 => ?_,
    fun c1 c2 c3 c4 v1 v2 v3 v4 h1 h2 h3 h4 => ?_, by rfl, by rfl⟩
  · show parse_hex_color _ = parse_hex_color _
    rw [parse_hex3 h1 h2 h3, parse_hex6 h1 h1 h2 h2 h3 h3]
  · show parse_hex_color _ = parse_hex_color _
    rw [parse_hex4 h1 h2 h3 h4, parse_hex8 h1 h1 h2 h2 h3 h3 h4 h4]

/-- Witness for C2: `#1a2b3c` decodes to `[26, 43, 60]`. -/
theorem normalize_color_hex_decode_witness :
    normalize_color (.str (String.mk ['#', '1', 'a', '2', 'b', '3', 'c'])) =
      .ok [((16 * 1 + 10 : ℕ) : ℚ), ((16 * 2 + 11 : ℕ) : ℚ),
           ((16 * 3 + 12 : ℕ) : ℚ)] :=
  normalize_color_hex_decode.1 '1' 'a' '2' 'b' '3' 'c' 1 10 2 11 3 12
    rfl rfl rfl rfl rfl rfl

theorem hexIsSome_of_space {c : Char} (h : pyIsSpace c = true) :
    (hexVal c).isSome = false := by
  rw [space_not_hex h]
  rfl

theorem pyIntParse16_pair (x y : Char) :
    (pyIntParse16 [x, y]).isSome = pairAccept x y := by
  by_cases hx : pyIsSpace x = true
  · by_cases hy : pyIsSpace y = true
    · have hstrip : pyStripChars [x, y] = [] := by
        simp [pyStripChars, List.dropWhile, hx, hy]
      unfold pyIntParse16
      rw [hstrip]
      simp [hexNatParse, hexStart, pairAccept, hexIsSome_of_space hx,
        hexIsSome_of_space hy]
    · have hy' : pyIsSpace y = false := by simpa using hy
      have hstrip : pyStripChars [x, y] = [y] := by
        simp [pyStripChars, List.dropWhile, hx, hy']
      unfold pyIntParse16
      rw [hstrip]
      dsimp only
      by_cases hp : y = '+'
      · subst hp
        simp [hexNatParse, hexStart, pairAccept, hexIsSome_of_space hx, hx,
          show hexVal '+' = none from rfl]
      · by_cases hm : y = '-'
        · subst hm
          simp [hexNatParse, hexStart, pairAccept, hexIsSome_of_space hx, hx,
            show hexVal '-' = none from rfl]
        · rw [if_neg hp, if_neg hm]
          cases hv : hexVal y with
          | none =>
            simp [hexNatParse, hexStart, hv, pairAccept,
              hexIsSome_of_space hx, hx]
          | some v =>
            simp [hexNatParse, hexStart, hexRun, hv, pairAccept, hx]
  · have hx' : pyIsSpace x = false := by simpa using hx
    by_cases hy : pyIsSpace y = true
    · have hstrip : pyStripChars [x, y] = [x] := by
        simp [pyStripChars, List.dropWhile, hx', hy]
      unfold pyIntParse16
      rw [hstrip]
      dsimp only
      by_cases hp : x = '+'
      · subst hp
        simp [hexNatParse, hexStart, pairAccept, hexIsSome_of_space hy, hy,
          show hexVal '+' = none from rfl]
      · by_cases hm : x = '-'
        · subst hm
          simp [hexNatParse, hexStart, pairAccept, hexIsSome_of_space hy, hy,
            show hexVal '-' = none from rfl]
        · rw [if_neg hp, if_neg hm]
          cases hv : hexVal x with
          | none =>
            simp [hexNatParse, hexStart, hv, pairAccept,
              hexIsSome_of_space hy, hy, hp, hm]
          | some v =>
            simp [hexNatParse, hexStart, hexRun, hv, pairAccept, hy]
    · have hy' : pyIsSpace y = false := by simpa using hy
      have hstrip : pyStripChars [x, y] = [x, y] := by
        simp [pyStripChars, List.dropWhile, hx', hy']
      unfold pyIntParse16
      rw [hstrip]
      dsimp only
      by_cases hp : x = '+'
      · subst hp
        rw [if_pos rfl]
        cases hv : hexVal y with
        | none =>
          simp [hexNatParse, hexStart, hv, pairAccept,
            show hexVal '+' = none from rfl, hy']
        | some v =>
          simp [hexNatParse, hexStart, hexRun, hv, pairAccept]
      · by_cases hm : x = '-'
        · subst hm
          rw [if_neg (by decide), if_pos rfl]
          cases hv : hexVal y with
          | none =>
            simp [hexNatParse, hexStart, hv, pairAccept,
              show hexVal '-' = none from rfl, hy']
          | some v =>
            simp [hexNatParse, hexStart, hexRun, hv, pairAccept]
        · rw [if_neg hp, if_neg hm]
          by_cases hpre : x = '0' ∧ (y = 'x' ∨ y = 'X')
          · obtain ⟨rfl, hy2⟩ := hpre
            rcases hy2 with rfl | rfl <;>
              simp [hexNatParse, hexAfterPrefix, hexStart, pairAccept, hx', hy',
                show hexVal 'x' = none from rfl, show hexVal 'X' = none from rfl,
                show (hexVal '0').isSome = true from rfl]
          · simp only [hexNatParse]
            rw [if_neg hpre]
            cases hvx : hexVal x with
            | none =>
              simp [hexStart, hvx, pairAccept, hx', hy', hp, hm]
            | some vx =>
              by_cases hu : y = '_'
              · subst hu
                simp [hexStart, hexRun, hvx, pairAccept, hx', hp, hm,
                  show hexVal '_' = none from rfl,
                  show pyIsSpace '_' = false from rfl]
              · cases hvy : hexVal y with
                | none =>
                  simp [hexStart, hexRun, hvx, hvy, hu, pairAccept, hy', hp, hm]
                | some vy =>
                  simp [hexStart, hexRun, hvx, hvy, hu, pairAccept]

theorem pyIntParse16_double (c : Char) :
    (pyIntParse16 [c, c]).isSome = (hexVal c).isSome := by
  rw [pyIntParse16_pair]
  cases hv : hexVal c with
  | none => simp [pairAccept, hv]
  | some v => simp [pairAccept, hv]

theorem listLen4 {l : List Char} (h : l.length = 4) :
    ∃ c1 c2 c3 c4, l = [c1, c2, c3, c4] := by
  obtain ⟨c1, l1, rfl⟩ := List.exists_of_length_succ l h
  have h3 : l1.length = 3 := by simp only [List.length_cons] at h; omega
  obtain ⟨c2, c3, c4, rfl⟩ := List.length_eq_three.mp h3
  exact ⟨c1, c2, c3, c4, rfl⟩

theorem listLen6 {l : List Char} (h : l.length = 6) :
    ∃ c1 c2 c3 c4 c5 c6, l = [c1, c2, c3, c4, c5, c6] := by
  obtain ⟨c1, l1, rfl⟩ := List.exists_of_length_succ l h
  have h5 : l1.length = 4 + 1 := by simp only [List.length_cons] at h; omega
  obtain ⟨c2, l2, rfl⟩ := List.exists_of_length_succ l1 h5
  have h4 : l2.length = 4 := by simp only [List.length_cons] at h5; omega
  obtain ⟨c3, c4, c5, c6, rfl⟩ := listLen4 h4
  exact ⟨c1, c2, c3, c4, c5, c6, rfl⟩

theorem listLen8 {l : List Char} (h : l.length = 8) :
    ∃ c1 c2 c3 c4 c5 c6 c7 c8, l = [c1, c2, c3, c4, c5, c6, c7, c8] := by
  obtain ⟨c1, l1, rfl⟩ := List.exists_of_length_succ l h
  have h7 : l1.length = 6 + 1 := by simp only [List.length_cons] at h; omega
  obtain ⟨c2, l2, rfl⟩ := List.exists_of_length_succ l1 h7
  have h6 : l2.length = 6 := by simp only [List.length_cons] at h7; omega
  obtain ⟨c3, c4, c5, c6, c7, c8, rfl⟩ := listLen6 h6
  exact ⟨c1, c2, c3, c4, c5, c6, c7, c8, rfl⟩

/-- C4 (counterexample to the claim as stated): the string `" #fff"` does
not begin with the marker character, yet `normalize_color` succeeds — the
source strips surrounding whitespace before checking for the marker, so
the claimed "fails if the string does not begin with the marker" is
false. -/
theorem normalize_color_strip_counterexample :
    " #fff".data.head? ≠ some '#' ∧
    normalize_color (.str " #fff") = .ok [255, 255, 255] :=
  ⟨by decide, by rfl⟩

/-- C4 (amended): the string path of `normalize_color` succeeds exactly
when, after stripping surrounding whitespace, the input begins with the
marker and the remainder either has length 3 or 4 with every character a
hex digit, or has length 6 or 8 with every consecutive two-character
slice accepted by Python's base-16 integer parser (two hex digits, or a
single hex digit with a sign or whitespace in the other position); it
fails otherwise. -/
theorem normalize_color_string_success (s : String) :
    exceptOk (normalize_color (.str s)) = hexFormatOK s.data := by
  show exceptOk (parse_hex_color s) = hexFormatOK s.data
  unfold parse_hex_color hexFormatOK
  cases hst : pyStripChars s.data with
  | nil => rfl
  | cons c rest =>
    dsimp only
    by_cases hc : c = '#'
    case neg => rw [if_neg hc, if_neg hc]; rfl
    subst hc
    rw [if_pos rfl, if_pos rfl]
    by_cases h3 : rest.length = 3
    · obtain ⟨a, b, d, rfl⟩ := List.length_eq_three.mp h3
      simp only [List.length_cons, List.length_nil, dupChars, List.drop,
        List.take, List.all_cons, List.all_nil]
      norm_num
      rw [← pyIntParse16_double a, ← pyIntParse16_double b,
        ← pyIntParse16_double d]
      cases pyIntParse16 [a, a] <;> cases pyIntParse16 [b, b] <;>
        cases pyIntParse16 [d, d] <;> rfl
    · by_cases h4 : rest.length = 4
      · obtain ⟨a, b, d, e, rfl⟩ := listLen4 h4
        simp only [List.length_cons, List.length_nil, dupChars, List.drop,
          List.take, List.all_cons, List.all_nil]
        norm_num
        rw [← pyIntParse16_double a, ← pyIntParse16_double b,
          ← pyIntParse16_double d, ← pyIntParse16_double e]
        cases pyIntParse16 [a, a] <;> cases pyIntParse16 [b, b] <;>
          cases pyIntParse16 [d, d] <;> cases pyIntParse16 [e, e] <;> rfl
      · by_cases h6 : rest.length = 6
        · obtain ⟨a, b, d, e, f, g, rfl⟩ := listLen6 h6
          simp only [List.length_cons, List.length_nil, List.drop, List.take,
            chunkPairs, List.all_cons, List.all_nil]
          norm_num
          rw [← pyIntParse16_pair a b, ← pyIntParse16_pair d e,
            ← pyIntParse16_pair f g]
          cases pyIntParse16 [a, b] <;> cases pyIntParse16 [d, e] <;>
            cases pyIntParse16 [f, g] <;> rfl
        · by_cases h8 : rest.length = 8
          · obtain ⟨a, b, d, e, f, g, i, j, rfl⟩ := listLen8 h8
            simp only [List.length_cons, List.length_nil, List.drop, List.take,
              chunkPairs, List.all_cons, List.all_nil]
            norm_num
            rw [← pyIntParse16_pair a b, ← pyIntParse16_pair d e,
              ← pyIntParse16_pair f g, ← pyIntParse16_pair i j]
            cases pyIntParse16 [a, b] <;> cases pyIntParse16 [d, e] <;>
              cases pyIntParse16 [f, g] <;> cases pyIntParse16 [i, j] <;> rfl
          · rw [if_neg h3, if_neg h4, if_neg h6, if_neg h8,
              if_neg (by simp [h3, h4]), if_neg (by simp [h6, h8])]
            rfl

end DeckglDash
